import Mathlib

/-!
Shallow embedding of the bcos-gateway P2P wire-message codec
(src/gateway/libp2p/P2PMessage.h) and proofs about it.

Bytes are modelled as natural numbers; a buffer is a `List Nat`.
Multi-byte fields are big-endian (network byte order), with explicit
`% 256` where the C++ code narrows a wider value into a byte.

The header `P2PMessage.h` declares `P2PMessageOptions::encode/decode`
and `P2PMessage::encode/decode` but their bodies live in a translation
unit that is not part of this tree; those four functions are modelled
from the spec (sections 4.1-4.3 and 6), as noted on each definition.
All other members (constants, constructors, `setRespPacket`,
`isRespPacket`, `hasOptions`, the factory) are translated directly from
the inline definitions in the header.
-/

/-- Big-endian 1-byte encoding of a value (narrowed mod 256). -/
def u8enc (n : Nat) : List Nat := [n % 256]

/-- Big-endian 2-byte encoding of a value (narrowed mod 65536). -/
def u16enc (n : Nat) : List Nat := [n / 256 % 256, n % 256]

/-- Big-endian 4-byte encoding of a value (narrowed mod 2^32). -/
def u32enc (n : Nat) : List Nat :=
  [n / 16777216 % 256, n / 65536 % 256, n / 256 % 256, n % 256]

/-- Read one byte from the front of a buffer (0 if absent). -/
def readU8 : List Nat → Nat
  | a :: _ => a
  | _ => 0

/-- Read a big-endian 2-byte value from the front of a buffer. -/
def readU16 : List Nat → Nat
  | a :: b :: _ => a * 256 + b
  | _ => 0

/-- Read a big-endian 4-byte value from the front of a buffer. -/
def readU32 : List Nat → Nat
  | a :: b :: c :: d :: _ => ((a * 256 + b) * 256 + c) * 256 + d
  | _ => 0

-- Message type values from `enum MessageType` in P2PMessage.h.
namespace MessageType

def Heartbeat : Nat := 1
def Handshake : Nat := 2
def RequestNodeIDs : Nat := 3
def ResponseNodeIDs : Nat := 4
def PeerToPeerMessage : Nat := 5
def BroadcastMessage : Nat := 6

end MessageType

-- Ext-field flag values from `enum MessageExtFieldFlag`.
namespace MessageExtFieldFlag

def Response : Nat := 1

end MessageExtFieldFlag

-- Decode status values from `enum MessageDecodeStatus`.
namespace MessageDecodeStatus

def MESSAGE_ERROR : Int := -1
def MESSAGE_INCOMPLETE : Int := 0

end MessageDecodeStatus

/-- The options block of a P2P message: groupID (bytes of the string),
source node identity, destination node identities
(fields `m_groupID`, `m_srcNodeID`, `m_dstNodeIDs` of
`P2PMessageOptions`). -/
structure P2PMessageOptions where
  m_groupID : List Nat
  m_srcNodeID : List Nat
  m_dstNodeIDs : List (List Nat)
deriving DecidableEq, Repr

/-- The default-constructed options: empty groupID, a fresh empty source
node identity, no destinations (`P2PMessageOptions()` constructor). -/
def P2PMessageOptions.init : P2PMessageOptions := ⟨[], [], []⟩

/-- groupID length(1) + nodeID length(2) + dst nodeID count(1). -/
def P2PMessageOptions.OPTIONS_MIN_LENGTH : Nat := 5

/-- The maximum supported groupID length, 65535 (from P2PMessage.h). -/
def P2PMessageOptions.MAX_GROUPID_LENGTH : Nat := 65535

/-- The maximum supported nodeID length, 65535 (from P2PMessage.h). -/
def P2PMessageOptions.MAX_NODEID_LENGTH : Nat := 65535

/-- The maximum supported dst nodeID count, 255 (from P2PMessage.h). -/
def P2PMessageOptions.MAX_DST_NODEID_COUNT : Nat := 255

/-- Modelled from the spec: the body of `P2PMessageOptions::encode`
(P2PMessage.cpp is absent from the tree). Writes a 1-byte groupID
length, the groupID bytes, a 2-byte source-identity length, the source
identity bytes, a 1-byte destination count, then the destination
identity bytes concatenated. Fails when a declared maximum from the
header is exceeded or when some destination identity's length differs
from the source identity's length. -/
def P2PMessageOptions.encode (o : P2PMessageOptions) : Option (List Nat) :=
  if o.m_groupID.length > P2PMessageOptions.MAX_GROUPID_LENGTH then none
  else if o.m_srcNodeID.length > P2PMessageOptions.MAX_NODEID_LENGTH then none
  else if o.m_dstNodeIDs.length > P2PMessageOptions.MAX_DST_NODEID_COUNT then none
  else if o.m_dstNodeIDs.any (fun d => d.length != o.m_srcNodeID.length) then none
  else some (u8enc o.m_groupID.length ++ o.m_groupID ++
             u16enc o.m_srcNodeID.length ++ o.m_srcNodeID ++
             u8enc o.m_dstNodeIDs.length ++ o.m_dstNodeIDs.flatten)

/-- Modelled from the spec: the body of `P2PMessageOptions::decode`
(P2PMessage.cpp is absent from the tree). Requires at least the 5
prefix bytes; reads the 1-byte groupID length, the groupID, the 2-byte
identity length, the source identity, the 1-byte destination count and
then count x identityLength destination bytes, signalling a shortfall
(`none`) whenever the buffer ends before a field completes. On success
returns the options together with the number of bytes consumed. -/
def P2PMessageOptions.decode (b : List Nat) :
    Option (P2PMessageOptions × Nat) :=
  if b.length < P2PMessageOptions.OPTIONS_MIN_LENGTH then none
  else
    let g := readU8 b
    if b.length < 1 + g + 2 then none
    else
      let gid := (b.drop 1).take g
      let idLen := readU16 (b.drop (1 + g))
      if b.length < 3 + g + idLen + 1 then none
      else
        let src := (b.drop (3 + g)).take idLen
        let cnt := readU8 (b.drop (3 + g + idLen))
        if b.length < 4 + g + idLen + cnt * idLen then none
        else
          some (⟨gid, src,
                 (List.range cnt).map
                   (fun i => (b.drop (4 + g + idLen + i * idLen)).take idLen)⟩,
                4 + g + idLen + cnt * idLen)

/-- A P2P message envelope: header fields, options block, payload
(fields `m_length`, `m_version`, `m_packetType`, `m_seq`, `m_ext`,
`m_options`, `m_payload` of `P2PMessage`). -/
structure P2PMessage where
  m_length : Nat
  m_version : Nat
  m_packetType : Nat
  m_seq : Nat
  m_ext : Nat
  m_options : P2PMessageOptions
  m_payload : List Nat
deriving DecidableEq, Repr

/-- length(4) + version(2) + packetType(2) + seq(4) + ext(2). -/
def P2PMessage.MESSAGE_HEADER_LENGTH : Nat := 14

/-- The default-constructed message: all header fields zero, an empty
payload, a fresh default options object (`P2PMessage()` constructor
together with the in-class field initializers). -/
def P2PMessage.init : P2PMessage := ⟨0, 0, 0, 0, 0, P2PMessageOptions.init, []⟩

/-- Whether a packet type carries an options block
(`P2PMessage::hasOptions` as a function of the packet-type value). -/
def hasOptionsPacketType (t : Nat) : Bool :=
  (t == MessageType.PeerToPeerMessage) || (t == MessageType.BroadcastMessage)

/-- `P2PMessage::hasOptions()`. -/
def P2PMessage.hasOptions (m : P2PMessage) : Bool :=
  hasOptionsPacketType m.m_packetType

/-- `P2PMessage::setRespPacket()`: `m_ext |= MessageExtFieldFlag::Response`. -/
def P2PMessage.setRespPacket (m : P2PMessage) : P2PMessage :=
  { m with m_ext := m.m_ext ||| MessageExtFieldFlag.Response }

/-- `P2PMessage::isRespPacket()`: `(m_ext & MessageExtFieldFlag::Response) != 0`. -/
def P2PMessage.isRespPacket (m : P2PMessage) : Bool :=
  (m.m_ext &&& MessageExtFieldFlag.Response) != 0

/-- The 14 header bytes: length, version, packetType, seq, ext, each
big-endian, with the given value written into the length field. -/
def P2PMessage.encodeHeader (len : Nat) (m : P2PMessage) : List Nat :=
  u32enc len ++ u16enc m.m_version ++ u16enc m.m_packetType ++
  u32enc m.m_seq ++ u16enc m.m_ext

/-- Modelled from the spec: the body of `P2PMessage::encode`
(P2PMessage.cpp is absent from the tree). Computes the total length as
header + encoded options (when the packet type carries options) +
payload, writes the header with that length, then the options, then the
payload verbatim; fails exactly when options encoding fails. -/
def P2PMessage.encode (m : P2PMessage) : Option (List Nat) :=
  if m.hasOptions then
    match m.m_options.encode with
    | none => none
    | some ob =>
        some (P2PMessage.encodeHeader
                (P2PMessage.MESSAGE_HEADER_LENGTH + ob.length + m.m_payload.length) m ++
              ob ++ m.m_payload)
  else
    some (P2PMessage.encodeHeader
            (P2PMessage.MESSAGE_HEADER_LENGTH + m.m_payload.length) m ++
          m.m_payload)

/-- Modelled from the spec: the body of `P2PMessage::decodeHeader`
(P2PMessage.cpp is absent from the tree). Consumes exactly 14 bytes
when available, yielding (length, version, packetType, seq, ext);
`none` reports Incomplete when fewer than 14 bytes are available. -/
def P2PMessage.decodeHeader (b : List Nat) :
    Option (Nat × Nat × Nat × Nat × Nat) :=
  if b.length < P2PMessage.MESSAGE_HEADER_LENGTH then none
  else some (readU32 b, readU16 (b.drop 4), readU16 (b.drop 6),
             readU32 (b.drop 8), readU16 (b.drop 12))

/-- Result of `P2PMessage::decode`: Incomplete (status 0), Error
(status -1), or success carrying the decoded message and the number of
bytes consumed. -/
inductive DecodeResult where
  | incomplete : DecodeResult
  | error : DecodeResult
  | ok : P2PMessage → Nat → DecodeResult
deriving DecidableEq, Repr

/-- The `ssize_t` view of a decode result: `MESSAGE_INCOMPLETE` (0),
`MESSAGE_ERROR` (-1), or the byte count consumed. -/
def DecodeResult.toSsize : DecodeResult → Int
  | .incomplete => MessageDecodeStatus.MESSAGE_INCOMPLETE
  | .error => MessageDecodeStatus.MESSAGE_ERROR
  | .ok _ n => (n : Int)

/-- Modelled from the spec: the body of `P2PMessage::decode`
(P2PMessage.cpp is absent from the tree), parameterised by the
configured maximum frame size. Runs the header codec (Incomplete when
under 14 bytes); rejects a declared length below 14 or above the
maximum; reports Incomplete while the buffer holds fewer bytes than the
declared length; then, for an options-bearing packet type, decodes the
options from the bytes after the header within the declared length,
reclassifying any shortfall as Error; the remaining declared bytes
become the payload. -/
def P2PMessage.decode (maxLength : Nat) (b : List Nat) : DecodeResult :=
  match P2PMessage.decodeHeader b with
  | none => .incomplete
  | some (len, ver, ptype, seq, ext) =>
    if len < P2PMessage.MESSAGE_HEADER_LENGTH then .error
    else if maxLength < len then .error
    else if b.length < len then .incomplete
    else
      let body := (b.take len).drop P2PMessage.MESSAGE_HEADER_LENGTH
      if hasOptionsPacketType ptype then
        match P2PMessageOptions.decode body with
        | none => .error
        | some (opts, c) =>
            .ok ⟨len, ver, ptype, seq, ext, opts, body.drop c⟩ len
      else
        .ok ⟨len, ver, ptype, seq, ext, P2PMessageOptions.init, body⟩ len

/-- `P2PMessageFactory::buildMessage()`: a fresh default message. -/
def P2PMessageFactory.buildMessage : P2PMessage := P2PMessage.init

/-- Reading back a 2-byte big-endian encoding recovers the value. -/
theorem readU16_u16enc (n : Nat) (r : List Nat) (h : n < 65536) :
    readU16 (u16enc n ++ r) = n := by
  simp [u16enc, readU16]
  omega

/-- Reading back a 4-byte big-endian encoding recovers the value. -/
theorem readU32_u32enc (n : Nat) (r : List Nat) (h : n < 4294967296) :
    readU32 (u32enc n ++ r) = n := by
  simp [u32enc, readU32]
  omega

/-- The flattening of a list of lists all of length `s` has length
count times `s`. -/
theorem flatten_length_uniform (L : List (List Nat)) (s : Nat)
    (h : ∀ d ∈ L, d.length = s) : L.flatten.length = L.length * s := by
  induction L with
  | nil => simp
  | cons d t ih =>
      simp only [List.flatten_cons, List.length_append, List.length_cons]
      rw [h d (by simp), ih (fun x hx => h x (by simp [hx]))]
      ring

/-- Slicing the flattening of uniform-length lists at multiples of the
common length recovers the lists, for any appended tail. -/
theorem flatten_slices (L : List (List Nat)) (s : Nat) (tail : List Nat)
    (h : ∀ d ∈ L, d.length = s) :
    (List.range L.length).map
      (fun i => ((L.flatten ++ tail).drop (i * s)).take s) = L := by
  induction L with
  | nil => simp
  | cons d t ih =>
      have hd : d.length = s := h d (by simp)
      have ht : ∀ x ∈ t, x.length = s := fun x hx => h x (by simp [hx])
      simp only [List.length_cons, List.range_succ_eq_map, List.map_cons,
        List.map_map, List.flatten_cons, List.append_assoc]
      congr 1
      · simp only [Nat.zero_mul, List.drop_zero]
        exact List.take_left' hd
      · have : ∀ i ∈ List.range t.length,
            ((fun i => ((d ++ (t.flatten ++ tail)).drop (i * s)).take s) ∘ Nat.succ) i
              = (fun i => ((t.flatten ++ tail).drop (i * s)).take s) i := by
          intro i _
          simp only [Function.comp_apply]
          have e1 : Nat.succ i * s = d.length + i * s := by
            rw [hd, Nat.succ_mul, Nat.add_comm]
          rw [e1, ← List.drop_drop, List.drop_left]
        rw [List.map_congr_left this, ih ht]

/-- Decoding the wire shape produced by options encoding recovers the
options and consumes exactly the options bytes, for any appended
suffix. -/
theorem options_decode_shaped (gid src : List Nat) (L : List (List Nat))
    (suffix : List Nat)
    (hg : gid.length < 256) (hs : src.length < 65536)
    (hL : ∀ d ∈ L, d.length = src.length)
    (hne : 1 ≤ gid.length + src.length + L.flatten.length + suffix.length) :
    P2PMessageOptions.decode
      (gid.length :: (gid ++ (src.length / 256 % 256) :: (src.length % 256) ::
        (src ++ L.length :: (L.flatten ++ suffix)))) =
    some (⟨gid, src, L⟩,
          4 + gid.length + src.length + L.length * src.length) := by
  have hJ : L.flatten.length = L.length * src.length :=
    flatten_length_uniform L _ hL
  have hlen : (gid.length :: (gid ++ (src.length / 256 % 256) ::
      (src.length % 256) :: (src ++ L.length :: (L.flatten ++ suffix)))).length
      = 4 + gid.length + src.length + L.flatten.length + suffix.length := by
    simp [List.length_cons, List.length_append]
    omega
  have e2 : (gid.length :: (gid ++ (src.length / 256 % 256) ::
      (src.length % 256) :: (src ++ L.length :: (L.flatten ++ suffix)))).drop
        (1 + gid.length)
      = (src.length / 256 % 256) :: (src.length % 256) ::
        (src ++ L.length :: (L.flatten ++ suffix)) := by
    rw [Nat.add_comm 1 gid.length, List.drop_succ_cons]
    exact List.drop_left gid _
  have e3 : readU16 ((gid.length :: (gid ++ (src.length / 256 % 256) ::
      (src.length % 256) :: (src ++ L.length :: (L.flatten ++ suffix)))).drop
        (1 + gid.length)) = src.length := by
    rw [e2]
    show src.length / 256 % 256 * 256 + src.length % 256 = src.length
    omega
  have e4 : (gid.length :: (gid ++ (src.length / 256 % 256) ::
      (src.length % 256) :: (src ++ L.length :: (L.flatten ++ suffix)))).drop
        (3 + gid.length)
      = src ++ L.length :: (L.flatten ++ suffix) := by
    rw [show 3 + gid.length = 1 + gid.length + 2 from by omega,
        ← List.drop_drop 2 (1 + gid.length), e2]
    rfl
  have e5 : (gid.length :: (gid ++ (src.length / 256 % 256) ::
      (src.length % 256) :: (src ++ L.length :: (L.flatten ++ suffix)))).drop
        (3 + gid.length + src.length)
      = L.length :: (L.flatten ++ suffix) := by
    rw [← List.drop_drop src.length (3 + gid.length), e4]
    exact List.drop_left src _
  have e7 : ∀ i : Nat,
      (gid.length :: (gid ++ (src.length / 256 % 256) ::
        (src.length % 256) :: (src ++ L.length :: (L.flatten ++ suffix)))).drop
          (4 + gid.length + src.length + i * src.length)
      = (L.flatten ++ suffix).drop (i * src.length) := by
    intro i
    rw [show 4 + gid.length + src.length + i * src.length
          = 3 + gid.length + src.length + (i * src.length + 1) from by omega,
        ← List.drop_drop (i * src.length + 1) (3 + gid.length + src.length),
        e5, List.drop_succ_cons]
  simp only [P2PMessageOptions.decode, P2PMessageOptions.OPTIONS_MIN_LENGTH,
    readU8, e3, hlen, e5]
  rw [if_neg (by omega)]
  rw [if_neg (by omega)]
  rw [if_neg (by omega)]
  rw [if_neg (by omega)]
  simp only [List.drop_succ_cons, List.drop_zero, List.take_left]
  rw [e4, List.take_left' rfl]
  have hmap1 :
      List.map (fun i =>
        List.take src.length
          (List.drop (4 + gid.length + src.length + i * src.length)
            (gid.length :: (gid ++ src.length / 256 % 256 :: src.length % 256 ::
              (src ++ L.length :: (L.flatten ++ suffix))))))
        (List.range L.length)
      = List.map (fun i =>
          List.take src.length (List.drop (i * src.length) (L.flatten ++ suffix)))
        (List.range L.length) :=
    List.map_congr_left (fun i _ => by rw [e7 i])
  rw [hmap1, flatten_slices L src.length suffix hL]

/-- Well-formed options: every field fits its wire-format prefix and
every destination identity has the source identity's length. -/
def P2PMessageOptions.wf (o : P2PMessageOptions) : Prop :=
  o.m_groupID.length ≤ 255 ∧ o.m_srcNodeID.length ≤ 65535 ∧
  o.m_dstNodeIDs.length ≤ 255 ∧
  ∀ d ∈ o.m_dstNodeIDs, d.length = o.m_srcNodeID.length

instance (o : P2PMessageOptions) : Decidable o.wf := by
  unfold P2PMessageOptions.wf
  infer_instance

/-- The byte length of the encoded options block. -/
def P2PMessageOptions.encLen (o : P2PMessageOptions) : Nat :=
  4 + o.m_groupID.length + o.m_srcNodeID.length + o.m_dstNodeIDs.flatten.length

/-- For well-formed options, encoding succeeds and produces the wire
shape: groupID length byte, groupID, two identity-length bytes, source
identity, count byte, concatenated destinations. -/
theorem options_encode_eq_of_wf (o : P2PMessageOptions) (h : o.wf) :
    o.encode = some (o.m_groupID.length :: (o.m_groupID ++
      (o.m_srcNodeID.length / 256 % 256) :: (o.m_srcNodeID.length % 256) ::
      (o.m_srcNodeID ++ o.m_dstNodeIDs.length :: o.m_dstNodeIDs.flatten))) := by
  obtain ⟨h1, h2, h3, h4⟩ := h
  have hany : (o.m_dstNodeIDs.any fun d => d.length != o.m_srcNodeID.length)
      = false := by
    rw [List.any_eq_false]
    intro d hd
    simp [h4 d hd]
  rw [P2PMessageOptions.encode]
  rw [if_neg (by simp [P2PMessageOptions.MAX_GROUPID_LENGTH]; omega)]
  rw [if_neg (by simp [P2PMessageOptions.MAX_NODEID_LENGTH]; omega)]
  rw [if_neg (by simp [P2PMessageOptions.MAX_DST_NODEID_COUNT]; omega)]
  rw [if_neg (by simp [hany])]
  simp [u8enc, u16enc, Nat.mod_eq_of_lt (show o.m_groupID.length < 256 by omega),
    Nat.mod_eq_of_lt (show o.m_dstNodeIDs.length < 256 by omega)]

/-- The encoded options buffer has length `encLen`. -/
theorem options_encode_length (o : P2PMessageOptions) (h : o.wf)
    (eb : List Nat) (he : o.encode = some eb) : eb.length = o.encLen := by
  rw [options_encode_eq_of_wf o h] at he
  obtain rfl := (Option.some.inj he).symm
  simp [P2PMessageOptions.encLen, List.length_cons, List.length_append]
  omega

theorem drop4_cons (a1 a2 a3 a4 : Nat) (t : List Nat) :
    List.drop 4 (a1 :: a2 :: a3 :: a4 :: t) = t := rfl

theorem drop6_cons (a1 a2 a3 a4 a5 a6 : Nat) (t : List Nat) :
    List.drop 6 (a1 :: a2 :: a3 :: a4 :: a5 :: a6 :: t) = t := rfl

theorem drop8_cons (a1 a2 a3 a4 a5 a6 a7 a8 : Nat) (t : List Nat) :
    List.drop 8 (a1 :: a2 :: a3 :: a4 :: a5 :: a6 :: a7 :: a8 :: t) = t := rfl

theorem drop12_cons (a1 a2 a3 a4 a5 a6 a7 a8 a9 a10 a11 a12 : Nat)
    (t : List Nat) :
    List.drop 12 (a1 :: a2 :: a3 :: a4 :: a5 :: a6 :: a7 :: a8 :: a9 :: a10 ::
      a11 :: a12 :: t) = t := rfl

theorem drop14_cons (a1 a2 a3 a4 a5 a6 a7 a8 a9 a10 a11 a12 a13 a14 : Nat)
    (t : List Nat) :
    List.drop 14 (a1 :: a2 :: a3 :: a4 :: a5 :: a6 :: a7 :: a8 :: a9 :: a10 ::
      a11 :: a12 :: a13 :: a14 :: t) = t := rfl

/-- The header bytes followed by a body, as an explicit byte list. -/
theorem encodeHeader_cons (len : Nat) (m : P2PMessage) (rest : List Nat) :
    P2PMessage.encodeHeader len m ++ rest =
      (len / 16777216 % 256) :: (len / 65536 % 256) :: (len / 256 % 256) ::
      (len % 256) :: (m.m_version / 256 % 256) :: (m.m_version % 256) ::
      (m.m_packetType / 256 % 256) :: (m.m_packetType % 256) ::
      (m.m_seq / 16777216 % 256) :: (m.m_seq / 65536 % 256) ::
      (m.m_seq / 256 % 256) :: (m.m_seq % 256) ::
      (m.m_ext / 256 % 256) :: (m.m_ext % 256) :: rest := by
  simp [P2PMessage.encodeHeader, u32enc, u16enc]

/-- All five header fields read back from an encoded header. -/
theorem header_reads (len : Nat) (m : P2PMessage) (rest : List Nat)
    (hlen : len < 4294967296) (hv : m.m_version < 65536)
    (ht : m.m_packetType < 65536) (hs : m.m_seq < 4294967296)
    (he : m.m_ext < 65536) :
    readU32 (P2PMessage.encodeHeader len m ++ rest) = len ∧
    readU16 ((P2PMessage.encodeHeader len m ++ rest).drop 4) = m.m_version ∧
    readU16 ((P2PMessage.encodeHeader len m ++ rest).drop 6) = m.m_packetType ∧
    readU32 ((P2PMessage.encodeHeader len m ++ rest).drop 8) = m.m_seq ∧
    readU16 ((P2PMessage.encodeHeader len m ++ rest).drop 12) = m.m_ext ∧
    (P2PMessage.encodeHeader len m ++ rest).drop 14 = rest ∧
    (P2PMessage.encodeHeader len m ++ rest).length = 14 + rest.length := by
  rw [encodeHeader_cons]
  refine ⟨?_, ?_, ?_, ?_, ?_, ?_, ?_⟩
  · show ((len / 16777216 % 256 * 256 + len / 65536 % 256) * 256 +
      len / 256 % 256) * 256 + len % 256 = len
    omega
  · rw [drop4_cons]
    show m.m_version / 256 % 256 * 256 + m.m_version % 256 = m.m_version
    omega
  · rw [drop6_cons]
    show m.m_packetType / 256 % 256 * 256 + m.m_packetType % 256 = m.m_packetType
    omega
  · rw [drop8_cons]
    show ((m.m_seq / 16777216 % 256 * 256 + m.m_seq / 65536 % 256) * 256 +
      m.m_seq / 256 % 256) * 256 + m.m_seq % 256 = m.m_seq
    omega
  · rw [drop12_cons]
    show m.m_ext / 256 % 256 * 256 + m.m_ext % 256 = m.m_ext
    omega
  · rw [drop14_cons]
  · simp
    omega

/-- The total byte length of an encoded message. -/
def P2PMessage.encLen (m : P2PMessage) : Nat :=
  P2PMessage.MESSAGE_HEADER_LENGTH +
  (if m.hasOptions then m.m_options.encLen else 0) + m.m_payload.length

/-- A valid message: header fields in range, declared length consistent
with the encoding, total length within the u32 length field, options
well-formed when the packet type carries options and default otherwise. -/
def P2PMessage.valid (m : P2PMessage) : Prop :=
  m.m_version < 65536 ∧ m.m_packetType < 65536 ∧
  m.m_seq < 4294967296 ∧ m.m_ext < 65536 ∧
  m.m_length = m.encLen ∧ m.encLen < 4294967296 ∧
  (m.hasOptions = true → m.m_options.wf) ∧
  (m.hasOptions = false → m.m_options = P2PMessageOptions.init)

instance (m : P2PMessage) : Decidable m.valid := by
  unfold P2PMessage.valid
  infer_instance

/-- An options-bearing message is non-degenerate when its groupID,
source identity and payload are not all empty (otherwise the options
region plus payload is 4 bytes, under the 5-byte options minimum). -/
def P2PMessage.nonDegenerate (m : P2PMessage) : Prop :=
  m.hasOptions = true →
    (m.m_options.m_groupID ≠ [] ∨ m.m_options.m_srcNodeID ≠ [] ∨
     m.m_payload ≠ [])

instance (m : P2PMessage) : Decidable m.nonDegenerate := by
  unfold P2PMessage.nonDegenerate
  infer_instance

/-- Encode/decode round trip for valid, non-degenerate messages: encode
succeeds, the buffer is `encLen` bytes, and decode (under a maximum
frame size at least the frame length) returns the message and consumes
the whole frame. -/
theorem decode_encode_of_valid (m : P2PMessage) (maxL : Nat)
    (hv : m.valid) (hnd : m.nonDegenerate) (hmax : m.encLen ≤ maxL) :
    ∃ buf, m.encode = some buf ∧ buf.length = m.encLen ∧
      P2PMessage.decode maxL buf = DecodeResult.ok m m.encLen := by
  obtain ⟨hv1, hv2, hv3, hv4, hv5, hv6, hv7, hv8⟩ := hv
  by_cases hopt : m.hasOptions = true
  · -- options-bearing packet type
    have hwf := hv7 hopt
    obtain ⟨hw1, hw2, hw3, hw4⟩ := hwf
    have hshape := options_encode_eq_of_wf m.m_options ⟨hw1, hw2, hw3, hw4⟩
    set eb := m.m_options.m_groupID.length :: (m.m_options.m_groupID ++
      (m.m_options.m_srcNodeID.length / 256 % 256) ::
      (m.m_options.m_srcNodeID.length % 256) ::
      (m.m_options.m_srcNodeID ++ m.m_options.m_dstNodeIDs.length ::
        m.m_options.m_dstNodeIDs.flatten)) with hebdef
    have heb : eb.length = m.m_options.encLen :=
      options_encode_length m.m_options ⟨hw1, hw2, hw3, hw4⟩ _ hshape
    have hJ : m.m_options.m_dstNodeIDs.flatten.length =
        m.m_options.m_dstNodeIDs.length * m.m_options.m_srcNodeID.length :=
      flatten_length_uniform _ _ hw4
    have hEL : m.encLen = 14 + m.m_options.encLen + m.m_payload.length := by
      simp [P2PMessage.encLen, P2PMessage.MESSAGE_HEADER_LENGTH, hopt, heb]
    have hne : 1 ≤ m.m_options.m_groupID.length +
        m.m_options.m_srcNodeID.length +
        m.m_options.m_dstNodeIDs.flatten.length + m.m_payload.length := by
      rcases hnd hopt with h | h | h
      · have := List.length_pos.mpr h
        omega
      · have := List.length_pos.mpr h
        omega
      · have := List.length_pos.mpr h
        omega
    obtain ⟨r1, r2, r3, r4, r5, r6, r7⟩ :=
      header_reads m.encLen m (eb ++ m.m_payload) hv6 hv1 hv2 hv3 hv4
    have hblen : (P2PMessage.encodeHeader m.encLen m ++
        (eb ++ m.m_payload)).length = m.encLen := by
      rw [r7]
      simp only [List.length_append, heb]
      omega
    refine ⟨P2PMessage.encodeHeader m.encLen m ++ (eb ++ m.m_payload),
      ?_, ?_, ?_⟩
    · rw [P2PMessage.encode, if_pos hopt, hshape]
      dsimp only
      simp only [P2PMessage.MESSAGE_HEADER_LENGTH]
      rw [heb, ← hEL, List.append_assoc]
    · exact hblen
    · have hhd : P2PMessage.decodeHeader (P2PMessage.encodeHeader m.encLen m ++
          (eb ++ m.m_payload)) =
          some (m.encLen, m.m_version, m.m_packetType, m.m_seq, m.m_ext) := by
        rw [P2PMessage.decodeHeader]
        simp only [P2PMessage.MESSAGE_HEADER_LENGTH]
        rw [if_neg (by rw [hblen]; omega)]
        rw [r1, r2, r3, r4, r5]
      rw [P2PMessage.decode, hhd]
      dsimp only
      simp only [P2PMessage.MESSAGE_HEADER_LENGTH]
      rw [if_neg (by omega)]
      rw [if_neg (by omega)]
      rw [if_neg (by rw [hblen]; omega)]
      rw [List.take_of_length_le (le_of_eq hblen)]
      rw [r6]
      have hopt' : hasOptionsPacketType m.m_packetType = true := hopt
      rw [if_pos hopt']
      have hconc : eb ++ m.m_payload = m.m_options.m_groupID.length ::
          (m.m_options.m_groupID ++
            (m.m_options.m_srcNodeID.length / 256 % 256) ::
            (m.m_options.m_srcNodeID.length % 256) ::
            (m.m_options.m_srcNodeID ++ m.m_options.m_dstNodeIDs.length ::
              (m.m_options.m_dstNodeIDs.flatten ++ m.m_payload))) := by
        rw [hebdef]
        simp [List.cons_append, List.append_assoc]
      rw [hconc]
      rw [options_decode_shaped m.m_options.m_groupID m.m_options.m_srcNodeID
        m.m_options.m_dstNodeIDs m.m_payload (by omega) (by omega) hw4 hne]
      dsimp only
      have hpay : (m.m_options.m_groupID.length ::
          (m.m_options.m_groupID ++
            (m.m_options.m_srcNodeID.length / 256 % 256) ::
            (m.m_options.m_srcNodeID.length % 256) ::
            (m.m_options.m_srcNodeID ++ m.m_options.m_dstNodeIDs.length ::
              (m.m_options.m_dstNodeIDs.flatten ++ m.m_payload)))).drop
            (4 + m.m_options.m_groupID.length + m.m_options.m_srcNodeID.length +
             m.m_options.m_dstNodeIDs.length * m.m_options.m_srcNodeID.length)
          = m.m_payload := by
        rw [← hconc]
        have hlen2 : eb.length = 4 + m.m_options.m_groupID.length +
            m.m_options.m_srcNodeID.length +
            m.m_options.m_dstNodeIDs.length * m.m_options.m_srcNodeID.length := by
          rw [heb]
          simp [P2PMessageOptions.encLen, hJ]
        rw [← hlen2]
        exact List.drop_left eb m.m_payload
      rw [hpay]
      congr 1
      rw [← hv5]
  · have hfalse : m.hasOptions = false := by
      simpa using hopt
    have hinit := hv8 hfalse
    have hEL : m.encLen = 14 + m.m_payload.length := by
      simp [P2PMessage.encLen, P2PMessage.MESSAGE_HEADER_LENGTH, hfalse]
    obtain ⟨r1, r2, r3, r4, r5, r6, r7⟩ :=
      header_reads m.encLen m m.m_payload hv6 hv1 hv2 hv3 hv4
    have hblen : (P2PMessage.encodeHeader m.encLen m ++ m.m_payload).length
        = m.encLen := by
      rw [r7]
      omega
    refine ⟨P2PMessage.encodeHeader m.encLen m ++ m.m_payload, ?_, ?_, ?_⟩
    · rw [P2PMessage.encode, if_neg hopt]
      simp only [P2PMessage.MESSAGE_HEADER_LENGTH]
      rw [← hEL]
    · exact hblen
    · have hhd : P2PMessage.decodeHeader (P2PMessage.encodeHeader m.encLen m ++
          m.m_payload) =
          some (m.encLen, m.m_version, m.m_packetType, m.m_seq, m.m_ext) := by
        rw [P2PMessage.decodeHeader]
        simp only [P2PMessage.MESSAGE_HEADER_LENGTH]
        rw [if_neg (by rw [hblen]; omega)]
        rw [r1, r2, r3, r4, r5]
      rw [P2PMessage.decode, hhd]
      dsimp only
      simp only [P2PMessage.MESSAGE_HEADER_LENGTH]
      rw [if_neg (by omega)]
      rw [if_neg (by omega)]
      rw [if_neg (by rw [hblen]; omega)]
      rw [List.take_of_length_le (le_of_eq hblen)]
      rw [r6]
      have hopt' : hasOptionsPacketType m.m_packetType = false := hfalse
      rw [if_neg (by simp [hopt'])]
      congr 1
      rw [← hinit, ← hv5]

/-- Reading a header field from a strict-prefix truncation agrees with
the full buffer, as long as the truncation keeps the bytes read. -/
theorem readU16_take (l : List Nat) (k : Nat) (h : 2 ≤ k) :
    readU16 (l.take k) = readU16 l := by
  obtain ⟨j, rfl⟩ := Nat.exists_eq_add_of_le h
  rw [Nat.add_comm 2 j]
  rcases l with _ | ⟨a, _ | ⟨b, t⟩⟩ <;> rfl

theorem readU32_take (l : List Nat) (k : Nat) (h : 4 ≤ k) :
    readU32 (l.take k) = readU32 l := by
  obtain ⟨j, rfl⟩ := Nat.exists_eq_add_of_le h
  rw [Nat.add_comm 4 j]
  rcases l with _ | ⟨a, _ | ⟨b, _ | ⟨c, _ | ⟨d, t⟩⟩⟩⟩ <;> rfl

/-- Taking at least 14 bytes preserves the header decode. -/
theorem decodeHeader_take (l : List Nat) (k : Nat) (h : 14 ≤ k) :
    P2PMessage.decodeHeader (l.take k) = P2PMessage.decodeHeader l := by
  have c4 : (l.take k).drop 4 = (l.drop 4).take (k - 4) := by
    have e := (List.take_drop 4 (k - 4) l).symm
    rw [show 4 + (k - 4) = k from by omega] at e
    exact e
  have c6 : (l.take k).drop 6 = (l.drop 6).take (k - 6) := by
    have e := (List.take_drop 6 (k - 6) l).symm
    rw [show 6 + (k - 6) = k from by omega] at e
    exact e
  have c8 : (l.take k).drop 8 = (l.drop 8).take (k - 8) := by
    have e := (List.take_drop 8 (k - 8) l).symm
    rw [show 8 + (k - 8) = k from by omega] at e
    exact e
  have c12 : (l.take k).drop 12 = (l.drop 12).take (k - 12) := by
    have e := (List.take_drop 12 (k - 12) l).symm
    rw [show 12 + (k - 12) = k from by omega] at e
    exact e
  rw [P2PMessage.decodeHeader, P2PMessage.decodeHeader]
  simp only [P2PMessage.MESSAGE_HEADER_LENGTH]
  by_cases hl : l.length < 14
  · rw [if_pos (by simp only [List.length_take]; omega), if_pos hl]
  · rw [if_neg (by simp only [List.length_take]; omega), if_neg hl]
    rw [readU32_take l k (by omega)]
    rw [c4, readU16_take _ _ (by omega)]
    rw [c6, readU16_take _ _ (by omega)]
    rw [c8, readU32_take _ _ (by omega)]
    rw [c12, readU16_take _ _ (by omega)]

/-- A successfully encoded buffer is `encLen` bytes long and declares
`encLen` in its header length field. -/
theorem encode_buf_facts (m : P2PMessage) (hv : m.valid) (buf : List Nat)
    (he : m.encode = some buf) :
    buf.length = m.encLen ∧ readU32 buf = m.encLen := by
  obtain ⟨hv1, hv2, hv3, hv4, hv5, hv6, hv7, hv8⟩ := hv
  by_cases hopt : m.hasOptions = true
  · have hwf := hv7 hopt
    have hshape := options_encode_eq_of_wf m.m_options hwf
    set eb := m.m_options.m_groupID.length :: (m.m_options.m_groupID ++
      (m.m_options.m_srcNodeID.length / 256 % 256) ::
      (m.m_options.m_srcNodeID.length % 256) ::
      (m.m_options.m_srcNodeID ++ m.m_options.m_dstNodeIDs.length ::
        m.m_options.m_dstNodeIDs.flatten)) with hebdef
    have heb : eb.length = m.m_options.encLen :=
      options_encode_length m.m_options hwf _ hshape
    have hEL : m.encLen = 14 + m.m_options.encLen + m.m_payload.length := by
      simp [P2PMessage.encLen, P2PMessage.MESSAGE_HEADER_LENGTH, hopt]
    rw [P2PMessage.encode, if_pos hopt, hshape] at he
    dsimp only at he
    obtain rfl := (Option.some.inj he).symm
    simp only [P2PMessage.MESSAGE_HEADER_LENGTH]
    obtain ⟨r1, r2, r3, r4, r5, r6, r7⟩ :=
      header_reads (14 + eb.length + m.m_payload.length) m
        (eb ++ m.m_payload) (by omega) hv1 hv2 hv3 hv4
    constructor
    · rw [List.append_assoc, r7]
      simp only [List.length_append]
      omega
    · rw [List.append_assoc, r1]
      omega
  · have hEL : m.encLen = 14 + m.m_payload.length := by
      simp [P2PMessage.encLen, P2PMessage.MESSAGE_HEADER_LENGTH, hopt]
    rw [P2PMessage.encode, if_neg hopt] at he
    obtain rfl := (Option.some.inj he).symm
    simp only [P2PMessage.MESSAGE_HEADER_LENGTH]
    obtain ⟨r1, r2, r3, r4, r5, r6, r7⟩ :=
      header_reads (14 + m.m_payload.length) m m.m_payload (by omega)
        hv1 hv2 hv3 hv4
    exact ⟨by rw [r7]; omega, by rw [r1]; omega⟩

/-- The options-bearing message whose groupID, source identity,
destination list and payload are all empty: every field is in range and
consistent, yet its 18-byte frame is rejected by decode. -/
def allEmptyP2P : P2PMessage := ⟨18, 0, 5, 0, 0, ⟨[], [], []⟩, []⟩

/-- C1 (counterexample): the all-empty PeerToPeerMessage satisfies every
validity condition of the claim (header fields in range, options present
for an options-bearing packet type, every destination the source's
length, consistent declared length), encode succeeds with an 18-byte
frame, yet decode returns Error on that very frame: the options region
is 4 bytes, under the 5-byte options minimum. -/
theorem c1_roundtrip_counterexample :
    allEmptyP2P.valid ∧
    P2PMessage.encode allEmptyP2P =
      some [0, 0, 0, 18, 0, 0, 0, 5, 0, 0, 0, 0, 0, 0, 0, 0, 0, 0] ∧
    P2PMessage.decode 100000
      [0, 0, 0, 18, 0, 0, 0, 5, 0, 0, 0, 0, 0, 0, 0, 0, 0, 0] =
      DecodeResult.error := by decide

/-- C1 (amended): for every valid message — header fields in range,
options present exactly for PeerToPeerMessage/BroadcastMessage with
every destination identity of the source identity's length, any
payload — that is moreover non-degenerate (when options are present,
groupID, source identity and payload are not all empty), decode of
encode succeeds under a sufficient frame-size limit, consumes exactly
the encoded byte count, and reproduces length, version, packetType,
seq, ext, groupID, srcNodeID, dstNodeIDs and payload exactly. -/
theorem c1_roundtrip (m : P2PMessage) (maxL : Nat) (hv : m.valid)
    (hnd : m.nonDegenerate) (hmax : m.encLen ≤ maxL) :
    ∃ buf, m.encode = some buf ∧ buf.length = m.encLen ∧
      P2PMessage.decode maxL buf = DecodeResult.ok m m.encLen :=
  decode_encode_of_valid m maxL hv hnd hmax

/-- Concrete unicast message exercising the amended round trip. -/
def c1_mW : P2PMessage := ⟨26, 1, 5, 7, 0, ⟨[9], [1, 2], [[3, 4], [5, 6]]⟩, [8]⟩

/-- Witness for C1 at a concrete unicast message. -/
theorem c1_roundtrip_witness :
    ∃ buf, P2PMessage.encode c1_mW = some buf ∧ buf.length = c1_mW.encLen ∧
      P2PMessage.decode 1000 buf = DecodeResult.ok c1_mW c1_mW.encLen :=
  c1_roundtrip c1_mW 1000 (by decide) (by decide) (by decide)

/-- C2: whenever some destination identity's byte length differs from
the source identity's, options encoding fails, and message encoding for
an options-bearing packet type fails with it — no frame is written with
mis-sliced destinations. -/
theorem c2_dst_length_mismatch (o : P2PMessageOptions) (m : P2PMessage)
    (h : ∃ d ∈ o.m_dstNodeIDs, d.length ≠ o.m_srcNodeID.length)
    (hm : m.m_options = o) (ht : m.hasOptions = true) :
    o.encode = none ∧ m.encode = none := by
  obtain ⟨d, hd, hdne⟩ := h
  have hany : (o.m_dstNodeIDs.any fun x => x.length != o.m_srcNodeID.length)
      = true :=
    List.any_eq_true.mpr ⟨d, hd, by simpa using hdne⟩
  have ho : o.encode = none := by
    unfold P2PMessageOptions.encode
    split_ifs with a1 a2 a3
    all_goals rfl
  refine ⟨ho, ?_⟩
  rw [P2PMessage.encode, if_pos ht, hm, ho]

/-- Witness for C2: one destination of length 2 against a source of
length 1. -/
theorem c2_dst_length_mismatch_witness :
    P2PMessageOptions.encode ⟨[], [1], [[2, 3]]⟩ = none ∧
    P2PMessage.encode ⟨0, 0, 5, 0, 0, ⟨[], [1], [[2, 3]]⟩, []⟩ = none :=
  c2_dst_length_mismatch ⟨[], [1], [[2, 3]]⟩
    ⟨0, 0, 5, 0, 0, ⟨[], [1], [[2, 3]]⟩, []⟩ (by decide) rfl (by decide)

/-- C3: every strict byte-prefix of a valid encoded frame decodes to
Incomplete — never Error and never a successful decode. -/
theorem c3_strict_prefix_incomplete (m : P2PMessage) (maxL : Nat)
    (buf : List Nat) (k : Nat) (hv : m.valid) (hmax : m.encLen ≤ maxL)
    (he : m.encode = some buf) (hk : k < m.encLen) :
    P2PMessage.decode maxL (buf.take k) = DecodeResult.incomplete := by
  obtain ⟨hblen, h32⟩ := encode_buf_facts m hv buf he
  have h14L : 14 ≤ m.encLen := by
    simp only [P2PMessage.encLen, P2PMessage.MESSAGE_HEADER_LENGTH]
    omega
  by_cases h14 : k < 14
  · rw [P2PMessage.decode]
    have hhd : P2PMessage.decodeHeader (buf.take k) = none := by
      rw [P2PMessage.decodeHeader, if_pos]
      simp only [List.length_take, P2PMessage.MESSAGE_HEADER_LENGTH]
      omega
    rw [hhd]
  · push_neg at h14
    rw [P2PMessage.decode, decodeHeader_take buf k h14, P2PMessage.decodeHeader]
    rw [if_neg (by simp only [P2PMessage.MESSAGE_HEADER_LENGTH]; omega)]
    dsimp only
    rw [h32]
    rw [if_neg (by simp only [P2PMessage.MESSAGE_HEADER_LENGTH]; omega)]
    rw [if_neg (by omega)]
    rw [if_pos (by simp only [List.length_take]; omega)]

/-- Witness for C3: an 11-byte prefix of a 19-byte heartbeat-with-payload
frame is Incomplete. -/
theorem c3_strict_prefix_incomplete_witness :
    P2PMessage.decode 500
      (((P2PMessage.encode ⟨19, 0, 1, 0, 0, ⟨[], [], []⟩, [1, 2, 3, 4, 5]⟩).getD
        []).take 11) = DecodeResult.incomplete :=
  c3_strict_prefix_incomplete ⟨19, 0, 1, 0, 0, ⟨[], [], []⟩, [1, 2, 3, 4, 5]⟩
    500 _ 11 (by decide) (by decide) rfl (by decide)

/-- C4: a buffer holding a full 14-byte header whose declared length is
below 14 or above the configured maximum decodes to Error — the frame
is rejected from the header alone, before options or payload. -/
theorem c4_declared_length_bounds (maxL : Nat) (b : List Nat)
    (hb : 14 ≤ b.length) (h : readU32 b < 14 ∨ maxL < readU32 b) :
    P2PMessage.decode maxL b = DecodeResult.error := by
  rw [P2PMessage.decode, P2PMessage.decodeHeader]
  simp only [P2PMessage.MESSAGE_HEADER_LENGTH]
  rw [if_neg (by omega)]
  dsimp only
  rcases h with h | h
  · rw [if_pos h]
  · by_cases h14 : readU32 b < 14
    · rw [if_pos h14]
    · rw [if_neg h14, if_pos h]

/-- Witness for C4: a 14-byte buffer declaring length 16777216 against
a 1000-byte maximum is rejected although only the header is present. -/
theorem c4_declared_length_bounds_witness :
    14 ≤ ([1, 0, 0, 0, 0, 0, 0, 1, 0, 0, 0, 0, 0, 0] : List Nat).length ∧
    (readU32 [1, 0, 0, 0, 0, 0, 0, 1, 0, 0, 0, 0, 0, 0] < 14 ∨
      1000 < readU32 [1, 0, 0, 0, 0, 0, 0, 1, 0, 0, 0, 0, 0, 0]) ∧
    P2PMessage.decode 1000 [1, 0, 0, 0, 0, 0, 0, 1, 0, 0, 0, 0, 0, 0] =
      DecodeResult.error :=
  ⟨by decide, by decide,
    c4_declared_length_bounds 1000 _ (by decide) (by decide)⟩

/-- C5: when a buffer holds its full declared length, the declared
length is within bounds and the packet type carries options, but the
declared length leaves fewer than 5 bytes after the header — or the
options block inside the declared length is truncated or malformed
(options decode shortfall) — decode returns Error, not Incomplete. -/
theorem c5_truncated_options_error (maxL : Nat) (b : List Nat)
    (h1 : 14 ≤ readU32 b) (h2 : readU32 b ≤ maxL) (h3 : readU32 b ≤ b.length)
    (h4 : hasOptionsPacketType (readU16 (b.drop 6)) = true)
    (h5 : readU32 b < 19 ∨
      P2PMessageOptions.decode ((b.take (readU32 b)).drop 14) = none) :
    P2PMessage.decode maxL b = DecodeResult.error := by
  have hnone : P2PMessageOptions.decode ((b.take (readU32 b)).drop 14)
      = none := by
    rcases h5 with h | h
    · rw [P2PMessageOptions.decode, if_pos]
      simp only [List.length_drop, List.length_take,
        P2PMessageOptions.OPTIONS_MIN_LENGTH]
      omega
    · exact h
  rw [P2PMessage.decode, P2PMessage.decodeHeader]
  simp only [P2PMessage.MESSAGE_HEADER_LENGTH]
  rw [if_neg (by omega)]
  dsimp only
  rw [if_neg (by omega), if_neg (by omega), if_neg (by omega), if_pos h4,
    hnone]

/-- Witness for C5: a 14-byte PeerToPeerMessage frame declaring length
14 leaves 0 options bytes and is Malformed. -/
theorem c5_truncated_options_error_witness :
    14 ≤ readU32 [0, 0, 0, 14, 0, 0, 0, 5, 0, 0, 0, 0, 0, 0] ∧
    readU32 [0, 0, 0, 14, 0, 0, 0, 5, 0, 0, 0, 0, 0, 0] ≤ 100 ∧
    readU32 [0, 0, 0, 14, 0, 0, 0, 5, 0, 0, 0, 0, 0, 0] ≤
      ([0, 0, 0, 14, 0, 0, 0, 5, 0, 0, 0, 0, 0, 0] : List Nat).length ∧
    hasOptionsPacketType
      (readU16 (([0, 0, 0, 14, 0, 0, 0, 5, 0, 0, 0, 0, 0, 0] :
        List Nat).drop 6)) = true ∧
    P2PMessage.decode 100 [0, 0, 0, 14, 0, 0, 0, 5, 0, 0, 0, 0, 0, 0] =
      DecodeResult.error :=
  ⟨by decide, by decide, by decide, by decide,
    c5_truncated_options_error 100 _ (by decide) (by decide) (by decide)
      (by decide) (Or.inl (by decide))⟩

theorem or_one_lt_65536 (x : Nat) (h : x < 65536) : x ||| 1 < 65536 := by
  have e : (65536 : Nat) = 2 ^ 16 := by norm_num
  rw [e] at h ⊢
  exact Nat.or_lt_two_pow h (by norm_num)

/-- C6 (counterexample): on the valid all-empty PeerToPeerMessage,
`setRespPacket` does set bit 0 of ext, but encode-then-decode of the
flagged message returns Error (its options region is 4 bytes, under the
5-byte options minimum), so no decoded message with `isRespPacket`
exists — refuting the claim's "for every message" round trip. -/
theorem c6_resp_flag_counterexample :
    allEmptyP2P.valid ∧
    allEmptyP2P.setRespPacket.isRespPacket = true ∧
    P2PMessage.encode allEmptyP2P.setRespPacket =
      some [0, 0, 0, 18, 0, 0, 0, 5, 0, 0, 0, 0, 0, 1, 0, 0, 0, 0] ∧
    P2PMessage.decode 100000
      [0, 0, 0, 18, 0, 0, 0, 5, 0, 0, 0, 0, 0, 1, 0, 0, 0, 0] =
      DecodeResult.error := by decide

/-- C6 (amended): `setRespPacket` sets exactly bit 0 of the ext field
(bit 0 becomes 1, the remaining bits `ext / 2` are untouched),
`isRespPacket` then holds, and for every valid, non-degenerate message
(as in amended C1), encoding followed by decoding the flagged message
reproduces it — length, version, packetType, seq, the other ext bits,
options and payload all unchanged from the unflagged message. -/
theorem c6_resp_flag_isolation (m : P2PMessage) (maxL : Nat) (hv : m.valid)
    (hnd : m.nonDegenerate) (hmax : m.encLen ≤ maxL) :
    m.setRespPacket.m_ext = (m.m_ext ||| 1) ∧
    m.setRespPacket.m_ext % 2 = 1 ∧
    m.setRespPacket.m_ext / 2 = m.m_ext / 2 ∧
    m.setRespPacket.isRespPacket = true ∧
    m.setRespPacket.m_length = m.m_length ∧
    m.setRespPacket.m_version = m.m_version ∧
    m.setRespPacket.m_packetType = m.m_packetType ∧
    m.setRespPacket.m_seq = m.m_seq ∧
    m.setRespPacket.m_options = m.m_options ∧
    m.setRespPacket.m_payload = m.m_payload ∧
    ∃ buf, m.setRespPacket.encode = some buf ∧
      buf.length = m.setRespPacket.encLen ∧
      P2PMessage.decode maxL buf =
        DecodeResult.ok m.setRespPacket m.setRespPacket.encLen := by
  obtain ⟨hv1, hv2, hv3, hv4, hv5, hv6, hv7, hv8⟩ := hv
  have hv' : m.setRespPacket.valid :=
    ⟨hv1, hv2, hv3, or_one_lt_65536 _ hv4, hv5, hv6, hv7, hv8⟩
  have hmod : (m.m_ext ||| 1) % 2 = 1 := by
    simp [Nat.or_mod_two_eq_one]
  have hdiv : (m.m_ext ||| 1) / 2 = m.m_ext / 2 := by
    rw [Nat.or_div_two]
    norm_num
  have hresp : m.setRespPacket.isRespPacket = true := by
    simp [P2PMessage.isRespPacket, P2PMessage.setRespPacket,
      MessageExtFieldFlag.Response, Nat.and_one_is_mod, hmod]
  exact ⟨rfl, hmod, hdiv, hresp, rfl, rfl, rfl, rfl, rfl, rfl,
    decode_encode_of_valid m.setRespPacket maxL hv' hnd hmax⟩

/-- Concrete message for the C6 witness. -/
def c6_mW : P2PMessage := ⟨19, 2, 5, 3, 4, ⟨[], [], []⟩, [9]⟩

/-- Witness for C6 at a concrete message with ext bit 2 already set. -/
theorem c6_resp_flag_isolation_witness :
    c6_mW.setRespPacket.m_ext = (c6_mW.m_ext ||| 1) ∧
    c6_mW.setRespPacket.m_ext % 2 = 1 ∧
    c6_mW.setRespPacket.m_ext / 2 = c6_mW.m_ext / 2 ∧
    c6_mW.setRespPacket.isRespPacket = true ∧
    c6_mW.setRespPacket.m_length = c6_mW.m_length ∧
    c6_mW.setRespPacket.m_version = c6_mW.m_version ∧
    c6_mW.setRespPacket.m_packetType = c6_mW.m_packetType ∧
    c6_mW.setRespPacket.m_seq = c6_mW.m_seq ∧
    c6_mW.setRespPacket.m_options = c6_mW.m_options ∧
    c6_mW.setRespPacket.m_payload = c6_mW.m_payload ∧
    ∃ buf, c6_mW.setRespPacket.encode = some buf ∧
      buf.length = c6_mW.setRespPacket.encLen ∧
      P2PMessage.decode 300 buf =
        DecodeResult.ok c6_mW.setRespPacket c6_mW.setRespPacket.encLen :=
  c6_resp_flag_isolation c6_mW 300 (by decide) (by decide) (by decide)

/-- The options value with a 256-byte groupID that exposes the missing
255-byte bound. -/
def c7_o : P2PMessageOptions := ⟨List.replicate 256 7, [1], []⟩

set_option maxRecDepth 8192 in
/-- C7 (code evaluated at the failing input): the header's declared
maximum `MAX_GROUPID_LENGTH` is 65535, so encoding a 256-byte groupID
is not rejected; the 1-byte length prefix is written as 256 mod 256 =
0, not the actual byte count — contradicting the claim that encode
fails rather than truncating. -/
theorem c7_groupid_truncated :
    c7_o.m_groupID.length = 256 ∧
    P2PMessageOptions.encode c7_o =
      some (0 :: (List.replicate 256 7 ++ [0, 1, 1, 0])) ∧
    readU8 (0 :: (List.replicate 256 7 ++ [0, 1, 1, 0])) = 0 := by decide

/-- C8: more than 255 destination identities make options encoding
fail, and message encoding with it — the 1-byte count field is never
written wrapped. -/
theorem c8_dst_count_bound (o : P2PMessageOptions) (m : P2PMessage)
    (h : 255 < o.m_dstNodeIDs.length) (hm : m.m_options = o)
    (ht : m.hasOptions = true) :
    o.encode = none ∧ m.encode = none := by
  have hgt : o.m_dstNodeIDs.length > P2PMessageOptions.MAX_DST_NODEID_COUNT := by
    simpa [P2PMessageOptions.MAX_DST_NODEID_COUNT] using h
  have ho : o.encode = none := by
    unfold P2PMessageOptions.encode
    split_ifs with a1 a2
    all_goals rfl
  refine ⟨ho, ?_⟩
  rw [P2PMessage.encode, if_pos ht, hm, ho]

set_option maxRecDepth 8192 in
/-- Witness for C8: 256 empty destinations against an empty source. -/
theorem c8_dst_count_bound_witness :
    P2PMessageOptions.encode ⟨[], [], List.replicate 256 []⟩ = none ∧
    P2PMessage.encode ⟨0, 0, 6, 0, 0, ⟨[], [], List.replicate 256 []⟩, []⟩ =
      none :=
  c8_dst_count_bound ⟨[], [], List.replicate 256 []⟩
    ⟨0, 0, 6, 0, 0, ⟨[], [], List.replicate 256 []⟩, []⟩ (by decide) rfl
    (by decide)

/-- The Scenario B unicast message: 6-byte groupID, 32-byte source
identity, two 32-byte destinations, 10-byte payload. -/
def c9_m : P2PMessage :=
  ⟨130, 1, 5, 2, 0,
   ⟨[1, 2, 3, 4, 5, 6], List.range 32,
    [List.range 32, (List.range 32).map (· + 1)]⟩,
   [9, 8, 7, 6, 5, 4, 3, 2, 1, 0]⟩

/-- The frame encoded from the Scenario B message. -/
def c9_buf : List Nat := (P2PMessage.encode c9_m).getD []

set_option maxRecDepth 8192 in
/-- C9: the Scenario B frame declares length 130 = 14 + 7 + 34 + 65 +
10, and decode consumes 130 bytes and reproduces groupID, source
identity, both destinations and payload exactly. -/
theorem c9_scenario_b :
    P2PMessage.encode c9_m = some c9_buf ∧
    c9_buf.length = 130 ∧
    readU32 c9_buf = 130 ∧
    P2PMessage.decode 100000 c9_buf = DecodeResult.ok c9_m 130 := by decide

/-- C10: a factory-built (default-constructed) message has every header
field zero, an empty payload, and a default options object with empty
groupID, empty source identity and no destinations; consequently it is
not a response packet and carries no options. -/
theorem c10_fresh_message :
    P2PMessageFactory.buildMessage = P2PMessage.init ∧
    P2PMessageFactory.buildMessage.m_length = 0 ∧
    P2PMessageFactory.buildMessage.m_version = 0 ∧
    P2PMessageFactory.buildMessage.m_packetType = 0 ∧
    P2PMessageFactory.buildMessage.m_seq = 0 ∧
    P2PMessageFactory.buildMessage.m_ext = 0 ∧
    P2PMessageFactory.buildMessage.m_payload = [] ∧
    P2PMessageFactory.buildMessage.m_options = P2PMessageOptions.init ∧
    P2PMessageFactory.buildMessage.m_options.m_groupID = [] ∧
    P2PMessageFactory.buildMessage.m_options.m_srcNodeID = [] ∧
    P2PMessageFactory.buildMessage.m_options.m_dstNodeIDs = [] ∧
    P2PMessageFactory.buildMessage.isRespPacket = false ∧
    P2PMessageFactory.buildMessage.hasOptions = false := by decide
